import Mathlib

/-!
Verification of the benchmark orchestration engine in `src/benchmark_runner.py`.

The driver sweeps protocol × scenario × payload × QoS combinations, runs one
transport strategy per protocol (blocking HTTP, callback-based MQTT,
cooperative-async CoAP), and reduces the raw per-message samples to one summary
row per combination (`summarize`).

Embedding conventions:
* Wall-clock time (`time.perf_counter() * 1000.0`, i.e. `now_ms`) is modelled as
  an explicit rational clock threaded through each strategy; `time.sleep(d)`
  advances the clock by `d` milliseconds.
* The network is modelled by a per-message outcome supplied to the strategy:
  either a response after a given elapsed time (with a status code, for HTTP),
  or a raised exception (timeout / transport error / malformed response) after
  a given elapsed time.
* Python floats are modelled as rationals.  `int(len(lat) * 0.95)` equals
  `(19 * len) / 20` in natural-number division for every list length that can
  arise (the float `0.95` is below `19/20` by less than `2⁻⁵³` relative error,
  and `19n/20` is never within that distance above an integer unless it is an
  integer, in which case the product still rounds to that integer), so the
  p95 index is embedded as `(19 * n) / 20 - 1` over `Int`.
* Python list indexing with a possibly negative index (`sorted(lat)[i]` where
  `i = -1` arises for a one-element list) is embedded by `pyGet`.
* `round(x, 2)` presentation rounding, the `cpu_percent` / `timestamp` /
  `mean_*` fields of the row, and the payload bytes themselves (opaque to all
  measured quantities) are not modelled; no claim depends on them.
-/

namespace Protokoliot

/-- The fixed pre-send delay of `simulate_delay` (benchmark_runner.py lines
27-32), in milliseconds: `high_latency` sleeps 0.150 s, `jittery` 0.010 s,
anything else (including `normal`) does not sleep. -/
def delayMs (scenario : String) : ℚ :=
  if scenario = "high_latency" then 150
  else if scenario = "jittery" then 10
  else 0

/-- `simulate_delay` as a clock transformer: `time.sleep` advances the wall
clock by the scenario's delay. -/
def simulate_delay (scenario : String) (clock : ℚ) : ℚ :=
  clock + delayMs scenario

/-- The dictionary `{"lat": ..., "ok": ..., "sent": ...}` each strategy
returns. -/
structure BenchRes where
  lat : List ℚ
  ok : Nat
  sent : Nat
  deriving Repr, DecidableEq

/-- One message's fate at the transport level, for the blocking HTTP strategy:
`requests.post` either returns after `elapsedMs` with a status code, or raises
(timeout, transport error, malformed response) after `elapsedMs`. -/
inductive HttpOutcome where
  | resp (elapsedMs : ℚ) (status : Nat)
  | exn (elapsedMs : ℚ)
  deriving Repr, DecidableEq

/-- Wall-clock time consumed by the call itself. -/
def HttpOutcome.elapsedMs : HttpOutcome → ℚ
  | .resp e _ => e
  | .exn e => e

/-- The latency value `bench_http` appends for this outcome: the measured
elapsed time on a response (whatever the status), the fixed 2000.0 ms penalty
on an exception. -/
def HttpOutcome.latRecorded : HttpOutcome → ℚ
  | .resp e _ => e
  | .exn _ => 2000

/-- How much the outcome adds to the `ok` counter (only a 200 response). -/
def HttpOutcome.okInc : HttpOutcome → Nat
  | .resp _ status => if status = 200 then 1 else 0
  | .exn _ => 0

/-- Whether the outcome is a per-message failure (raised exception). -/
def HttpOutcome.isFail : HttpOutcome → Bool
  | .resp _ _ => false
  | .exn _ => true

/-- Loop state of `bench_http`: the wall clock and the accumulators `lat`,
`ok`. -/
structure HttpState where
  clock : ℚ
  lat : List ℚ
  ok : Nat
  deriving Repr, DecidableEq

/-- One iteration of the `bench_http` loop (lines 40-51): sleep the scenario
delay, take `t0 = now_ms()`, issue the request; on a response take
`t1 = now_ms()`, append `t1 - t0` and count `ok` if the status is 200; on an
exception append the penalty 2000.0. -/
def benchHttpStep (scenario : String) (st : HttpState) (o : HttpOutcome) : HttpState :=
  let t0 := simulate_delay scenario st.clock
  match o with
  | .resp e status =>
      { clock := t0 + e
        lat := st.lat ++ [(t0 + e) - t0]
        ok := st.ok + (if status = 200 then 1 else 0) }
  | .exn e =>
      { clock := t0 + e
        lat := st.lat ++ [2000]
        ok := st.ok }

/-- `bench_http` (lines 34-52) with the `requests` library available, run
against a stub transport described by `outcomes` (one outcome per iteration),
starting at wall-clock time `c0`.  Returns the result dictionary and the final
clock. -/
def bench_http (scenario : String) (outcomes : List HttpOutcome) (c0 : ℚ) :
    BenchRes × ℚ :=
  let st := outcomes.foldl (benchHttpStep scenario) ⟨c0, [], 0⟩
  (⟨st.lat, st.ok, outcomes.length⟩, st.clock)

/-- One message's fate for the cooperative-async CoAP strategy: the awaited
response arrives after `elapsedMs`, or the request raises after `elapsedMs`. -/
inductive CoapOutcome where
  | resp (elapsedMs : ℚ)
  | exn (elapsedMs : ℚ)
  deriving Repr, DecidableEq

/-- The latency value `_bench_coap_async` appends for this outcome. -/
def CoapOutcome.latRecorded : CoapOutcome → ℚ
  | .resp e => e
  | .exn _ => 2000

/-- Whether the outcome is a per-message failure. -/
def CoapOutcome.isFail : CoapOutcome → Bool
  | .resp _ => false
  | .exn _ => true

/-- Loop state of `_bench_coap_async`. -/
structure CoapState where
  clock : ℚ
  lat : List ℚ
  ok : Nat
  deriving Repr, DecidableEq

/-- One iteration of `_bench_coap_async` (lines 96-106): sleep the scenario
delay, take `t0 = now_ms()`, await the response; on success count `ok` and
append `now_ms() - t0`; on an exception append the penalty 2000.0. -/
def benchCoapStep (scenario : String) (st : CoapState) (o : CoapOutcome) : CoapState :=
  let t0 := simulate_delay scenario st.clock
  match o with
  | .resp e =>
      { clock := t0 + e
        lat := st.lat ++ [(t0 + e) - t0]
        ok := st.ok + 1 }
  | .exn e =>
      { clock := t0 + e
        lat := st.lat ++ [2000]
        ok := st.ok }

/-- `_bench_coap_async` (lines 91-108) run against a stub transport, starting
at clock `c0`; the surrounding `bench_coap` returns this result unchanged when
no setup failure occurs. -/
def bench_coap (scenario : String) (outcomes : List CoapOutcome) (c0 : ℚ) :
    BenchRes × ℚ :=
  let st := outcomes.foldl (benchCoapStep scenario) ⟨c0, [], 0⟩
  (⟨st.lat, st.ok, outcomes.length⟩, st.clock)

/-- A message as seen by the MQTT `on_message` callback: its arrival time
`t1 = now_ms()` and the optional `t0` user property embedded at publish time
(`none` when `msg.properties` is absent or carries no `UserProperty`). -/
structure MqttMsg where
  t1 : ℚ
  t0prop : Option ℚ
  deriving Repr, DecidableEq

/-- The latency `on_message` (lines 62-69) appends: `t1 - t0` when the send
timestamp user property is present, 0.0 otherwise. -/
def onMessageLat (m : MqttMsg) : ℚ :=
  match m.t0prop with
  | some t0 => m.t1 - t0
  | none => 0

/-- The receive side of `bench_mqtt`: folding `on_message` over the arrived
messages yields the `lat` list and the `recv` counter. -/
def mqttReceive (msgs : List MqttMsg) : List ℚ × Nat :=
  msgs.foldl (fun acc m => (acc.1 ++ [onMessageLat m], acc.2 + 1)) ([], 0)

/-- `bench_mqtt`'s result dictionary (line 89) given the messages the callback
saw: `ok` is the receipt counter `recv`, `sent` the iteration count. -/
def bench_mqtt (msgs : List MqttMsg) (iterations : Nat) : BenchRes :=
  ⟨(mqttReceive msgs).1, (mqttReceive msgs).2, iterations⟩

/-- Python list indexing `l[i]` for `i` possibly negative (a negative index
counts from the end); out-of-range access is given the junk value 0, which
never arises at the call sites proved about. -/
def pyGet (l : List ℚ) (i : Int) : ℚ :=
  if i < 0 then l.getD (l.length - (-i).toNat) 0 else l.getD i.toNat 0

/-- The positive-latency list `lat = [x for x in res["lat"] if x > 0]`
(line 120). -/
def posLat (res : BenchRes) : List ℚ :=
  res.lat.filter (fun x => 0 < x)

/-- The summary row `summarize` builds (lines 119-142), restricted to the
fields computed from the sample set (see the header for what is omitted). -/
structure ResultRow where
  protocol : String
  scenario : String
  payload_bytes : Nat
  qos : Option Nat
  iterations : Nat
  latency_p50_ms : Option ℚ
  latency_p95_ms : Option ℚ
  latency_max_ms : Option ℚ
  throughput_msg_per_s : ℚ
  loss_percent : ℚ
  deriving Repr, DecidableEq

/-- `summarize` (lines 119-142).  `lat` keeps the strictly positive samples;
`loss = max(0, 100*(1 - ok/max(1,sent)))`; `p50 = sorted(lat)[len//2]` when
`lat` is non-empty; `p95 = sorted(lat)[int(len*0.95)-1]` when `len >= 1`
(Python indexing, so index `-1` means the last element); `max = max(lat)` when
non-empty; `thr = ok / (sum(lat)/1000)` when `lat` is non-empty with positive
sum, else 0.0. -/
def summarize (protocol scenario : String) (payload : Nat) (qos : Option Nat)
    (res : BenchRes) : ResultRow :=
  let lat := posLat res
  let sortedLat := lat.insertionSort (· ≤ ·)
  { protocol := protocol
    scenario := scenario
    payload_bytes := payload
    qos := qos
    iterations := lat.length
    latency_p50_ms :=
      if lat.isEmpty then none else some (sortedLat.getD (lat.length / 2) 0)
    latency_p95_ms :=
      if 1 ≤ lat.length then
        some (pyGet sortedLat (((19 * lat.length) / 20 : Nat) - 1))
      else none
    latency_max_ms := lat.max?
    throughput_msg_per_s :=
      if ¬ lat.isEmpty ∧ 0 < lat.sum then (res.ok : ℚ) / (lat.sum / 1000) else 0
    loss_percent := max 0 (100 * (1 - (res.ok : ℚ) / ((max 1 res.sent : Nat) : ℚ))) }

/-- The percentile/maximum selection exactly as the spec words it: sort the
positive latencies ascending; `p50` is the entry at index `len/2` (integer
floor division); `p95` the entry at index `floor(len*0.95) - 1`, which for a
one-element list is the last (sole) element; `max` the last entry of the sort;
all three are `None` when the list is empty. -/
def specPercentiles (lat : List ℚ) : Option ℚ × Option ℚ × Option ℚ :=
  let s := lat.insertionSort (· ≤ ·)
  let n := lat.length
  (if n = 0 then none else some (s.getD (n / 2) 0),
    if n = 0 then none
    else if n = 1 then some (s.getD (n - 1) 0)
    else some (s.getD ((19 * n) / 20 - 1) 0),
    if n = 0 then none else some (s.getD (n - 1) 0))

/-- One (protocol, scenario, payload, qos) combination of the sweep. -/
structure Combo where
  protocol : String
  scenario : String
  payload : Nat
  qos : Option Nat
  deriving Repr, DecidableEq

/-- `protocols = ["HTTP","MQTT","COAP"]` when `--all` is set or none are
requested (lines 152-153). -/
def defaultProtocols : List String := ["HTTP", "MQTT", "COAP"]

/-- `scenarios = ["normal","high_latency","jittery"]` (line 158). -/
def defaultScenarios : List String := ["normal", "high_latency", "jittery"]

/-- `payloads = [32, 1024, 10*1024]` (line 157). -/
def defaultPayloads : List Nat := [32, 1024, 10 * 1024]

/-- `qos_list = [0, 1, 2]` (line 159). -/
def defaultQosList : List Nat := [0, 1, 2]

/-- `qos_iter = qos_list if proto == "MQTT" else [None]` (line 172). -/
def qosIter (qosList : List Nat) (proto : String) : List (Option Nat) :=
  if proto = "MQTT" then qosList.map some else [none]

/-- The nested combination loops of `main` (lines 169-173): protocols
outermost, then scenarios, then payload sizes, then the QoS iterator. -/
def sweepCombos (protocols scenarios : List String) (payloads qosList : List Nat) :
    List Combo :=
  protocols.flatMap fun proto =>
    scenarios.flatMap fun scen =>
      payloads.flatMap fun payload =>
        (qosIter qosList proto).map fun qos =>
          ⟨proto, scen, payload, qos⟩

/-- Which optional client libraries imported successfully (guarded imports,
lines 7-20). -/
structure Availability where
  requestsLib : Bool
  mqttLib : Bool
  aiocoapLib : Bool
  deriving Repr, DecidableEq

/-- The availability guard of the dispatch in `main` (lines 174-181), with the
body of a successful strategy call abstracted as `stub` (each strategy's
success path returns its `BenchRes`): a strategy whose library is missing
returns `(None, reason)` instead of raising; an unknown protocol yields
`(None, "unknown-protocol")`. -/
def benchFor (avail : Availability) (stub : Combo → BenchRes) (c : Combo) :
    Option BenchRes × Option String :=
  if c.protocol = "HTTP" then
    if avail.requestsLib then (some (stub c), none)
    else (none, some "requests-not-installed")
  else if c.protocol = "MQTT" then
    if avail.mqttLib then (some (stub c), none)
    else (none, some "mqtt-not-installed")
  else if c.protocol = "COAP" then
    if avail.aiocoapLib then (some (stub c), none)
    else (none, some "coap-not-installed")
  else (none, some "unknown-protocol")

/-- Whether the dispatched strategy for this protocol name has its library
available. -/
def protoAvailable (avail : Availability) (proto : String) : Bool :=
  if proto = "HTTP" then avail.requestsLib
  else if proto = "MQTT" then avail.mqttLib
  else if proto = "COAP" then avail.aiocoapLib
  else false

/-- The diagnostic reason attached to a skipped protocol. -/
def missingReason (proto : String) : String :=
  if proto = "HTTP" then "requests-not-installed"
  else if proto = "MQTT" then "mqtt-not-installed"
  else if proto = "COAP" then "coap-not-installed"
  else "unknown-protocol"

/-- The summary row `main` appends for a combination whose strategy
succeeded (line 186). -/
def rowOf (stub : Combo → BenchRes) (c : Combo) : ResultRow :=
  summarize c.protocol c.scenario c.payload c.qos (stub c)

/-- The accumulation loop of `main` (lines 168-186): a row of `summarize` for
every combination whose strategy returned a result, and a skip diagnostic
(the combination plus its reason) for every one that returned `None`; no
failure aborts the loop. -/
def runSweep (avail : Availability) (stub : Combo → BenchRes)
    (protocols scenarios : List String) (payloads qosList : List Nat) :
    List ResultRow × List (Combo × String) :=
  (sweepCombos protocols scenarios payloads qosList).foldl
    (fun acc c =>
      match benchFor avail stub c with
      | (some res, _) =>
          (acc.1 ++ [summarize c.protocol c.scenario c.payload c.qos res], acc.2)
      | (none, err) => (acc.1, acc.2 ++ [(c, err.getD "")]))
    ([], [])

/-- What the result sink does at the end of `main` (lines 188-195). -/
inductive SinkAction where
  | wrote (rows : List ResultRow)
  | warnedNoResults
  deriving Repr, DecidableEq

/-- Lines 190-195: the DataFrame of `rows` is empty iff `rows` is empty; the
CSV is written (with the accumulated rows, in sweep order) iff it is not. -/
def resultSink (rows : List ResultRow) : SinkAction :=
  if rows.isEmpty then SinkAction.warnedNoResults else SinkAction.wrote rows

/-- End-to-end `main` after CLI parsing: sweep, then sink. -/
def mainModel (avail : Availability) (stub : Combo → BenchRes)
    (protocols : List String) : SinkAction :=
  resultSink
    (runSweep avail stub protocols defaultScenarios defaultPayloads defaultQosList).1

/-! ### Helper lemmas about the strategy loops -/

theorem benchHttp_foldl_lat (scenario : String) (l : List HttpOutcome) (st : HttpState) :
    (l.foldl (benchHttpStep scenario) st).lat = st.lat ++ l.map HttpOutcome.latRecorded := by
  induction l generalizing st with
  | nil => simp
  | cons o l ih =>
    rw [List.foldl_cons, ih]
    cases o <;> simp [benchHttpStep, HttpOutcome.latRecorded]

theorem benchHttp_foldl_ok (scenario : String) (l : List HttpOutcome) (st : HttpState) :
    (l.foldl (benchHttpStep scenario) st).ok = st.ok + (l.map HttpOutcome.okInc).sum := by
  induction l generalizing st with
  | nil => simp
  | cons o l ih =>
    rw [List.foldl_cons, ih]
    cases o <;> simp [benchHttpStep, HttpOutcome.okInc, Nat.add_assoc]

theorem benchHttp_foldl_clock (scenario : String) (l : List HttpOutcome) (st : HttpState) :
    (l.foldl (benchHttpStep scenario) st).clock =
      st.clock + (l.map (fun o => delayMs scenario + o.elapsedMs)).sum := by
  induction l generalizing st with
  | nil => simp
  | cons o l ih =>
    rw [List.foldl_cons, ih]
    cases o <;> simp [benchHttpStep, HttpOutcome.elapsedMs, simulate_delay] <;> ring

theorem bench_http_lat (scenario : String) (outcomes : List HttpOutcome) (c0 : ℚ) :
    (bench_http scenario outcomes c0).1.lat = outcomes.map HttpOutcome.latRecorded := by
  simpa [bench_http] using benchHttp_foldl_lat scenario outcomes ⟨c0, [], 0⟩

theorem benchCoap_foldl_lat (scenario : String) (l : List CoapOutcome) (st : CoapState) :
    (l.foldl (benchCoapStep scenario) st).lat = st.lat ++ l.map CoapOutcome.latRecorded := by
  induction l generalizing st with
  | nil => simp
  | cons o l ih =>
    rw [List.foldl_cons, ih]
    cases o <;> simp [benchCoapStep, CoapOutcome.latRecorded]

theorem bench_coap_lat (scenario : String) (outcomes : List CoapOutcome) (c0 : ℚ) :
    (bench_coap scenario outcomes c0).1.lat = outcomes.map CoapOutcome.latRecorded := by
  simpa [bench_coap] using benchCoap_foldl_lat scenario outcomes ⟨c0, [], 0⟩

theorem mqttReceive_foldl (msgs : List MqttMsg) (acc : List ℚ × Nat) :
    msgs.foldl (fun acc m => (acc.1 ++ [onMessageLat m], acc.2 + 1)) acc =
      (acc.1 ++ msgs.map onMessageLat, acc.2 + msgs.length) := by
  induction msgs generalizing acc with
  | nil => simp
  | cons m msgs ih =>
    rw [List.foldl_cons, ih]
    simp
    omega

theorem mqttReceive_eq (msgs : List MqttMsg) :
    mqttReceive msgs = (msgs.map onMessageLat, msgs.length) := by
  simpa [mqttReceive] using mqttReceive_foldl msgs ([], 0)

/-- Generic fact: a `getD` at an in-range index is `getElem` there. -/
theorem getD_eq_getElem_of_lt {α : Type} (l : List α) (d : α) {i : Nat}
    (h : i < l.length) : l.getD i d = l[i] := by
  simp [List.getD_eq_getElem?_getD, List.getElem?_eq_getElem h]

theorem getD_mem_of_lt {l : List ℚ} {i : Nat} (h : i < l.length) : l.getD i 0 ∈ l := by
  rw [getD_eq_getElem_of_lt l 0 h]
  exact List.getElem_mem h

/-- In a `(· ≤ ·)`-sorted rational list, values are monotone in the index. -/
theorem sorted_getD_mono {l : List ℚ} (hs : l.Sorted (· ≤ ·)) {i j : Nat}
    (hij : i ≤ j) (hj : j < l.length) : l.getD i 0 ≤ l.getD j 0 := by
  have hi : i < l.length := lt_of_le_of_lt hij hj
  rw [getD_eq_getElem_of_lt l 0 hi, getD_eq_getElem_of_lt l 0 hj]
  have := @List.Sorted.rel_get_of_le ℚ (· ≤ ·) _ l hs ⟨i, hi⟩ ⟨j, hj⟩ hij
  simpa using this

/-- Every member of a rational list is bounded by its `max?`. -/
theorem le_max?_of_mem_q {l : List ℚ} {m x : ℚ} (hm : l.max? = some m) (hx : x ∈ l) :
    x ≤ m :=
  ((List.max?_le_iff (fun _ _ _ => max_le_iff) hm).1 le_rfl) x hx

theorem max?_mem_q {l : List ℚ} {m : ℚ} (hm : l.max? = some m) : m ∈ l :=
  List.max?_mem (fun a b => max_choice a b) hm

theorem max?_isSome_of_ne_nil {l : List ℚ} (h : l ≠ []) : ∃ m, l.max? = some m := by
  cases l with
  | nil => exact absurd rfl h
  | cons a as => exact ⟨as.foldl max a, rfl⟩

/-- Every entry of the positive-latency list is strictly positive. -/
theorem posLat_pos {res : BenchRes} {x : ℚ} (hx : x ∈ posLat res) : 0 < x := by
  have h := List.of_mem_filter hx
  simpa using h

theorem posLat_sum_pos {res : BenchRes} (h : posLat res ≠ []) : 0 < (posLat res).sum :=
  List.sum_pos _ (fun _ hx => posLat_pos hx) h

/-- A failing HTTP outcome is recorded as the 2000 ms penalty. -/
theorem httpLatRecorded_of_isFail {o : HttpOutcome} (h : o.isFail = true) :
    o.latRecorded = 2000 := by
  cases o with
  | resp e s => simp [HttpOutcome.isFail] at h
  | exn e => rfl

/-- A failing CoAP outcome is recorded as the 2000 ms penalty. -/
theorem coapLatRecorded_of_isFail {o : CoapOutcome} (h : o.isFail = true) :
    o.latRecorded = 2000 := by
  cases o with
  | resp e => simp [CoapOutcome.isFail] at h
  | exn e => rfl

/-! ### Claim C2 -/

/-- Claim C2, counterexample: in a `high_latency` run whose stub transport
answers honestly after 5 ms of wall-clock time with status 200, the recorded
latency is 5 ms, not at least 150 ms — `simulate_delay` sleeps before
`t0 = now_ms()` is taken, so the 150 ms floor never enters the measured
window. -/
theorem c2_counterexample :
    (bench_http "high_latency" [HttpOutcome.resp 5 200] 0).1.lat = [5] ∧
    ¬ ((150 : ℚ) ≤ 5) := by
  constructor
  · norm_num [bench_http, benchHttpStep, simulate_delay, delayMs]
  · norm_num

/-- Claim C2 as amended: with scenario `high_latency` the delay emulator does
sleep 150 ms once per message before send (`normal` sleeps 0 ms, `jittery`
10 ms), but the sleep precedes the send timestamp `t0`, so every recorded
per-message latency equals the transport call's own elapsed time (or the
2000 ms penalty on failure) and is not bounded below by 150 ms; only the wall
clock advances by 150 ms plus the call time for each message. -/
theorem c2_delay_before_measurement (outcomes : List HttpOutcome) (c0 : ℚ) :
    (bench_http "high_latency" outcomes c0).1.lat =
      outcomes.map HttpOutcome.latRecorded ∧
    (bench_http "high_latency" outcomes c0).2 =
      c0 + (outcomes.map (fun o => 150 + o.elapsedMs)).sum := by
  constructor
  · exact bench_http_lat "high_latency" outcomes c0
  · have h := benchHttp_foldl_clock "high_latency" outcomes ⟨c0, [], 0⟩
    simpa [bench_http, delayMs] using h

/-! ### Claim C3 -/

/-- Claim C3: in the blocking HTTP strategy and the cooperative-async CoAP
strategy, the latency list of a run over `n` iterations has exactly `n`
entries (one appended per iteration, equal to `sent`), and every iteration
whose call raised (timeout, transport error, malformed response) contributed
the fixed penalty latency 2000.0 ms instead of being omitted; the loop never
aborts on a per-message failure. -/
theorem c3_failures_recorded (scenario : String) (hOut : List HttpOutcome)
    (cOut : List CoapOutcome) (c0 c1 : ℚ) :
    ((bench_http scenario hOut c0).1.lat.length = hOut.length ∧
      (bench_http scenario hOut c0).1.sent = hOut.length ∧
      ∀ i, i < hOut.length → (hOut.getD i (HttpOutcome.exn 0)).isFail = true →
        (bench_http scenario hOut c0).1.lat.getD i 0 = 2000) ∧
    ((bench_coap scenario cOut c1).1.lat.length = cOut.length ∧
      (bench_coap scenario cOut c1).1.sent = cOut.length ∧
      ∀ i, i < cOut.length → (cOut.getD i (CoapOutcome.exn 0)).isFail = true →
        (bench_coap scenario cOut c1).1.lat.getD i 0 = 2000) := by
  constructor
  · refine ⟨by rw [bench_http_lat]; simp, rfl, ?_⟩
    intro i hi hfail
    rw [bench_http_lat]
    have hmap : i < (hOut.map HttpOutcome.latRecorded).length := by simpa using hi
    rw [getD_eq_getElem_of_lt _ 0 hmap, List.getElem_map]
    rw [getD_eq_getElem_of_lt hOut (HttpOutcome.exn 0) hi] at hfail
    exact httpLatRecorded_of_isFail hfail
  · refine ⟨by rw [bench_coap_lat]; simp, rfl, ?_⟩
    intro i hi hfail
    rw [bench_coap_lat]
    have hmap : i < (cOut.map CoapOutcome.latRecorded).length := by simpa using hi
    rw [getD_eq_getElem_of_lt _ 0 hmap, List.getElem_map]
    rw [getD_eq_getElem_of_lt cOut (CoapOutcome.exn 0) hi] at hfail
    exact coapLatRecorded_of_isFail hfail

/-- Claim C3 witness at a concrete failing input. -/
theorem c3_failures_recorded_witness :
    (bench_http "normal" [HttpOutcome.exn 7] 0).1.lat.getD 0 0 = 2000 ∧
    (bench_coap "normal" [CoapOutcome.exn 7] 0).1.lat.getD 0 0 = 2000 := by
  have h := c3_failures_recorded "normal" [HttpOutcome.exn 7] [CoapOutcome.exn 7] 0 0
  exact ⟨h.1.2.2 0 (by norm_num) (by rfl), h.2.2.2 0 (by norm_num) (by rfl)⟩

/-! ### Percentile selection lemmas -/

/-- `max(lat)` is the last element of the ascending sort: `List.max?` of a
non-empty rational list is the entry of `insertionSort (· ≤ ·)` at the last
index. -/
theorem max?_eq_sorted_last {l : List ℚ} (h : l ≠ []) :
    l.max? = some ((l.insertionSort (· ≤ ·)).getD (l.length - 1) 0) := by
  obtain ⟨m, hm⟩ := max?_isSome_of_ne_nil h
  have hs := List.sorted_insertionSort (· ≤ ·) l
  have hlen : (l.insertionSort (· ≤ ·)).length = l.length :=
    (List.perm_insertionSort (· ≤ ·) l).length_eq
  have hn : 0 < l.length := List.length_pos.2 h
  have hlast_lt : l.length - 1 < (l.insertionSort (· ≤ ·)).length := by omega
  have hlast_mem : (l.insertionSort (· ≤ ·)).getD (l.length - 1) 0 ∈ l :=
    (List.mem_insertionSort _).1 (getD_mem_of_lt hlast_lt)
  rw [hm]
  congr 1
  apply le_antisymm
  · have hmem : m ∈ l.insertionSort (· ≤ ·) :=
      (List.mem_insertionSort _).2 (max?_mem_q hm)
    obtain ⟨i, hi, hgi⟩ := List.mem_iff_getElem.1 hmem
    have hgd : (l.insertionSort (· ≤ ·)).getD i 0 = m := by
      rw [getD_eq_getElem_of_lt _ 0 hi]; exact hgi
    rw [← hgd]
    exact sorted_getD_mono hs (by omega) hlast_lt
  · exact le_max?_of_mem_q hm hlast_mem

/-- Resolution of the Python index `int(len*0.95) - 1`: for a one-element list
it is `-1` and selects the last (sole) element, otherwise it is the
non-negative index `(19*n)/20 - 1`. -/
theorem pyGet_p95_index (s : List ℚ) (n : Nat) (hn : 1 ≤ n)
    (hlen : s.length = n) :
    pyGet s ((((19 * n) / 20 : Nat) : Int) - 1) =
      if n = 1 then s.getD (n - 1) 0 else s.getD ((19 * n) / 20 - 1) 0 := by
  by_cases h1 : n = 1
  · subst h1
    have hidx : ((((19 * 1) / 20 : Nat) : Int) - 1) = -1 := by norm_num
    rw [hidx]
    simp [pyGet, hlen]
  · have h2 : 2 ≤ n := by omega
    have hq : 1 ≤ (19 * n) / 20 := by omega
    rw [if_neg h1]
    unfold pyGet
    rw [if_neg (by omega)]
    have htn : ((((19 * n) / 20 : Nat) : Int) - 1).toNat = (19 * n) / 20 - 1 := by
      omega
    rw [htn]

/-! ### Claim C4 -/

/-- Claim C4: `summarize` computes `p50` as `sorted[len//2]` over the
ascending-sorted positive latencies, `p95` as `sorted[int(len*0.95)-1]`
guarded to at least one sample (the index resolving, for a single sample, to
`-1`, i.e. the last element under Python indexing), and `max` as the largest
latency; all three are `None` when no positive latency exists. -/
theorem c4_percentile_selection (proto scen : String) (pl : Nat)
    (q : Option Nat) (res : BenchRes) :
    (summarize proto scen pl q res).latency_p50_ms =
      (specPercentiles (posLat res)).1 ∧
    (summarize proto scen pl q res).latency_p95_ms =
      (specPercentiles (posLat res)).2.1 ∧
    (summarize proto scen pl q res).latency_max_ms =
      (specPercentiles (posLat res)).2.2 := by
  by_cases hnil : posLat res = []
  · rw [summarize, specPercentiles]
    simp [hnil]
  · have hn : 1 ≤ (posLat res).length := by
      have := List.length_pos.2 hnil
      omega
    have hlen : ((posLat res).insertionSort (· ≤ ·)).length = (posLat res).length :=
      (List.perm_insertionSort (· ≤ ·) (posLat res)).length_eq
    refine ⟨?_, ?_, ?_⟩
    · rw [summarize, specPercentiles]
      have h1 : (posLat res).isEmpty = false := by simpa [List.isEmpty_iff] using hnil
      have hne0 : ¬ (posLat res).length = 0 := by omega
      simp [h1, hne0]
    · rw [summarize, specPercentiles]
      simp only [if_pos hn]
      rw [pyGet_p95_index _ (posLat res).length hn hlen]
      have hne0 : ¬ (posLat res).length = 0 := by omega
      rw [if_neg hne0]
      exact apply_ite some _ _ _
    · rw [summarize, specPercentiles]
      simp only []
      have hne0 : ¬ (posLat res).length = 0 := by omega
      rw [if_neg hne0]
      exact max?_eq_sorted_last hnil

/-! ### Claim C1 -/

/-- Claim C1, counterexample: for the sample set with positive latencies
`[1, 2]` (length 2), `summarize` selects `p50 = sorted[2//2] = sorted[1] = 2`
and `p95 = sorted[int(2*0.95)-1] = sorted[0] = 1`, so `p50 ≤ p95` fails. -/
theorem c1_counterexample :
    (summarize "HTTP" "normal" 32 none ⟨[1, 2], 2, 2⟩).latency_p50_ms = some 2 ∧
    (summarize "HTTP" "normal" 32 none ⟨[1, 2], 2, 2⟩).latency_p95_ms = some 1 ∧
    ¬ ((2 : ℚ) ≤ 1) := by
  refine ⟨?_, ?_, by norm_num⟩ <;>
    norm_num [summarize, posLat, pyGet, List.insertionSort, List.orderedInsert,
      List.filter]

/-- Claim C1 as amended: for every sample set whose positive-latency list is
non-empty and does not have length exactly 2, the row produced by `summarize`
satisfies `p50 ≤ p95 ≤ max`; at length exactly 2 the selection degenerates
(`p50` is the larger element, `p95` the smaller), so that case is excluded. -/
theorem c1_percentile_order (proto scen : String) (pl : Nat) (q : Option Nat)
    (res : BenchRes) (hne : posLat res ≠ [])
    (h2 : (posLat res).length ≠ 2) :
    ∃ a b c, (summarize proto scen pl q res).latency_p50_ms = some a ∧
      (summarize proto scen pl q res).latency_p95_ms = some b ∧
      (summarize proto scen pl q res).latency_max_ms = some c ∧
      a ≤ b ∧ b ≤ c := by
  obtain ⟨m, hm⟩ := max?_isSome_of_ne_nil hne
  have hs := List.sorted_insertionSort (· ≤ ·) (posLat res)
  have hlen : ((posLat res).insertionSort (· ≤ ·)).length = (posLat res).length :=
    (List.perm_insertionSort (· ≤ ·) (posLat res)).length_eq
  have hn : 1 ≤ (posLat res).length := by
    have := List.length_pos.2 hne
    omega
  have hEmp : (posLat res).isEmpty = false := by simpa [List.isEmpty_iff] using hne
  have hp50 : (summarize proto scen pl q res).latency_p50_ms =
      some (((posLat res).insertionSort (· ≤ ·)).getD ((posLat res).length / 2) 0) := by
    rw [summarize]
    simp [hEmp]
  have hp95 : (summarize proto scen pl q res).latency_p95_ms =
      some (if (posLat res).length = 1 then
          ((posLat res).insertionSort (· ≤ ·)).getD ((posLat res).length - 1) 0
        else ((posLat res).insertionSort (· ≤ ·)).getD
          ((19 * (posLat res).length) / 20 - 1) 0) := by
    rw [summarize]
    simp only [if_pos hn]
    rw [pyGet_p95_index _ (posLat res).length hn hlen]
  have hmax : (summarize proto scen pl q res).latency_max_ms = some m := by
    rw [summarize]
    simpa using hm
  have hle_max : ∀ i, i < (posLat res).length →
      ((posLat res).insertionSort (· ≤ ·)).getD i 0 ≤ m := by
    intro i hi
    have hi' : i < ((posLat res).insertionSort (· ≤ ·)).length := by omega
    exact le_max?_of_mem_q hm ((List.mem_insertionSort _).1 (getD_mem_of_lt hi'))
  rcases Nat.lt_or_ge (posLat res).length 2 with hcase | hcase
  · -- length 1
    have h1 : (posLat res).length = 1 := by omega
    refine ⟨((posLat res).insertionSort (· ≤ ·)).getD 0 0,
      ((posLat res).insertionSort (· ≤ ·)).getD 0 0, m, ?_, ?_, hmax, le_rfl, ?_⟩
    · rw [hp50, h1]
    · rw [hp95, if_pos h1, h1]
    · exact hle_max 0 (by omega)
  · -- length ≥ 3 (length 2 excluded by hypothesis)
    have h3 : 3 ≤ (posLat res).length := by omega
    have h1 : (posLat res).length ≠ 1 := by omega
    refine ⟨((posLat res).insertionSort (· ≤ ·)).getD ((posLat res).length / 2) 0,
      ((posLat res).insertionSort (· ≤ ·)).getD
        ((19 * (posLat res).length) / 20 - 1) 0, m, hp50, ?_, hmax, ?_, ?_⟩
    · rw [hp95, if_neg h1]
    · exact sorted_getD_mono hs (by omega) (by omega)
    · exact hle_max ((19 * (posLat res).length) / 20 - 1) (by omega)

/-- Claim C1 amended witness: the ordering holds at the concrete length-3
positive-latency list `[3, 1, 2]`. -/
theorem c1_percentile_order_witness :
    posLat ⟨[3, 1, 2], 3, 3⟩ ≠ [] ∧ (posLat ⟨[3, 1, 2], 3, 3⟩).length ≠ 2 ∧
    (∃ a b c,
      (summarize "HTTP" "normal" 32 none ⟨[3, 1, 2], 3, 3⟩).latency_p50_ms = some a ∧
      (summarize "HTTP" "normal" 32 none ⟨[3, 1, 2], 3, 3⟩).latency_p95_ms = some b ∧
      (summarize "HTTP" "normal" 32 none ⟨[3, 1, 2], 3, 3⟩).latency_max_ms = some c ∧
      a ≤ b ∧ b ≤ c) := by
  have hne : posLat ⟨[3, 1, 2], 3, 3⟩ ≠ [] := by
    norm_num [posLat, List.filter]
    simp
  have h2 : (posLat ⟨[3, 1, 2], 3, 3⟩).length ≠ 2 := by
    norm_num [posLat, List.filter]
  exact ⟨hne, h2, c1_percentile_order "HTTP" "normal" 32 none ⟨[3, 1, 2], 3, 3⟩ hne h2⟩

/-! ### Claim C5 -/

/-- Claim C5: for a sample set with `sent ≥ 1`, the loss percent is
`100 * max(0, 1 - succeeded/sent)`; it always lies in `[0, 100]` (the clamp
yields 0 even when `succeeded > sent`), and equals 0 when every sent message
succeeded. -/
theorem c5_loss_percent (proto scen : String) (pl : Nat) (q : Option Nat)
    (res : BenchRes) (hsent : 1 ≤ res.sent) :
    (summarize proto scen pl q res).loss_percent =
      100 * max 0 (1 - (res.ok : ℚ) / (res.sent : ℚ)) ∧
    0 ≤ (summarize proto scen pl q res).loss_percent ∧
    (summarize proto scen pl q res).loss_percent ≤ 100 ∧
    (res.ok = res.sent → (summarize proto scen pl q res).loss_percent = 0) := by
  have hms : (max 1 res.sent : Nat) = res.sent := Nat.max_eq_right hsent
  have hloss : (summarize proto scen pl q res).loss_percent =
      max 0 (100 * (1 - (res.ok : ℚ) / (res.sent : ℚ))) := by
    rw [summarize]
    simp [hms]
  have hdiv : (0 : ℚ) ≤ (res.ok : ℚ) / (res.sent : ℚ) := by positivity
  refine ⟨?_, ?_, ?_, ?_⟩
  · rw [hloss, mul_max_of_nonneg _ _ (by norm_num : (0 : ℚ) ≤ 100)]
    norm_num
  · rw [hloss]
    exact le_max_left 0 _
  · rw [hloss]
    apply max_le (by norm_num)
    nlinarith
  · intro hok
    have hcast : (res.sent : ℚ) ≠ 0 := by
      exact_mod_cast Nat.pos_iff_ne_zero.1 (by omega)
    rw [hloss, hok, div_self hcast]
    norm_num

/-- Claim C5 witness at the concrete sample set with 2 successes of 4 sent:
loss percent `100 * max 0 (1 - 2/4) = 50`, within bounds. -/
theorem c5_loss_percent_witness :
    1 ≤ (⟨[], 2, 4⟩ : BenchRes).sent ∧
    ((summarize "HTTP" "normal" 32 none ⟨[], 2, 4⟩).loss_percent =
        100 * max 0 (1 - ((⟨[], 2, 4⟩ : BenchRes).ok : ℚ) /
          ((⟨[], 2, 4⟩ : BenchRes).sent : ℚ)) ∧
      0 ≤ (summarize "HTTP" "normal" 32 none ⟨[], 2, 4⟩).loss_percent ∧
      (summarize "HTTP" "normal" 32 none ⟨[], 2, 4⟩).loss_percent ≤ 100 ∧
      ((⟨[], 2, 4⟩ : BenchRes).ok = (⟨[], 2, 4⟩ : BenchRes).sent →
        (summarize "HTTP" "normal" 32 none ⟨[], 2, 4⟩).loss_percent = 0)) :=
  ⟨by norm_num, c5_loss_percent "HTTP" "normal" 32 none ⟨[], 2, 4⟩ (by norm_num)⟩

/-! ### Claim C6 -/

/-- Claim C6: throughput is `succeeded / (sum of positive latencies in
seconds)` whenever at least one positive latency exists (their sum is then
automatically positive, every entry being positive), and 0.0 otherwise; in
particular 50 successes of 5 ms each yield exactly 200 msg/s. -/
theorem c6_throughput (proto scen : String) (pl : Nat) (q : Option Nat)
    (res : BenchRes) :
    (posLat res ≠ [] →
      (summarize proto scen pl q res).throughput_msg_per_s =
        (res.ok : ℚ) / ((posLat res).sum / 1000)) ∧
    (posLat res = [] →
      (summarize proto scen pl q res).throughput_msg_per_s = 0) ∧
    (summarize "HTTP" "normal" 32 none
      ⟨List.replicate 50 5, 50, 50⟩).throughput_msg_per_s = 200 := by
  refine ⟨?_, ?_, ?_⟩
  · intro hne
    have hsum := posLat_sum_pos hne
    have hEmp : (posLat res).isEmpty = false := by simpa [List.isEmpty_iff] using hne
    rw [summarize]
    simp [hEmp, hsum]
  · intro hnil
    rw [summarize]
    simp [hnil]
  · norm_num [summarize, posLat, List.filter_replicate, List.sum_replicate]

/-- Claim C6 witness: the non-degenerate branch applied at the concrete
50-success sample set. -/
theorem c6_throughput_witness :
    posLat ⟨List.replicate 50 5, 50, 50⟩ ≠ [] ∧
    (summarize "HTTP" "normal" 32 none
        ⟨List.replicate 50 5, 50, 50⟩).throughput_msg_per_s =
      ((⟨List.replicate 50 5, 50, 50⟩ : BenchRes).ok : ℚ) /
        ((posLat ⟨List.replicate 50 5, 50, 50⟩).sum / 1000) := by
  have hne : posLat ⟨List.replicate 50 5, 50, 50⟩ ≠ [] := by
    norm_num [posLat, List.filter_replicate]
  exact ⟨hne, (c6_throughput "HTTP" "normal" 32 none _).1 hne⟩

/-! ### Sweep controller lemmas -/

theorem benchFor_eq (avail : Availability) (stub : Combo → BenchRes) (c : Combo) :
    benchFor avail stub c =
      if protoAvailable avail c.protocol then (some (stub c), none)
      else (none, some (missingReason c.protocol)) := by
  simp only [benchFor, protoAvailable, missingReason]
  split_ifs <;> simp_all

theorem runSweep_foldl (avail : Availability) (stub : Combo → BenchRes)
    (l : List Combo) (acc : List ResultRow × List (Combo × String)) :
    l.foldl
      (fun acc c =>
        match benchFor avail stub c with
        | (some res, _) =>
            (acc.1 ++ [summarize c.protocol c.scenario c.payload c.qos res], acc.2)
        | (none, err) => (acc.1, acc.2 ++ [(c, err.getD "")]))
      acc =
      (acc.1 ++ (l.filter fun c => protoAvailable avail c.protocol).map (rowOf stub),
        acc.2 ++ (l.filter fun c => ! protoAvailable avail c.protocol).map
          fun c => (c, missingReason c.protocol)) := by
  induction l generalizing acc with
  | nil => simp
  | cons c l ih =>
    rw [List.foldl_cons, ih]
    rcases hav : protoAvailable avail c.protocol with _ | _ <;>
      simp [benchFor_eq, hav, rowOf, List.filter_cons]

theorem runSweep_eq (avail : Availability) (stub : Combo → BenchRes)
    (protocols scenarios : List String) (payloads qosList : List Nat) :
    runSweep avail stub protocols scenarios payloads qosList =
      (((sweepCombos protocols scenarios payloads qosList).filter
          fun c => protoAvailable avail c.protocol).map (rowOf stub),
        ((sweepCombos protocols scenarios payloads qosList).filter
          fun c => ! protoAvailable avail c.protocol).map
          fun c => (c, missingReason c.protocol)) := by
  simpa [runSweep] using
    runSweep_foldl avail stub (sweepCombos protocols scenarios payloads qosList) ([], [])

/-- Removing at least one element that fails the predicate makes the filtered
list strictly shorter. -/
theorem length_filter_lt_of_mem_not {α : Type} {p : α → Bool} {l : List α}
    {x : α} (hx : x ∈ l) (hpx : p x = false) :
    (l.filter p).length < l.length := by
  induction l with
  | nil => simp at hx
  | cons a l ih =>
    rcases List.mem_cons.1 hx with rfl | hmem
    · rw [List.filter_cons, hpx, if_neg Bool.false_ne_true]
      have hle := List.length_filter_le p l
      simp only [List.length_cons]
      omega
    · rw [List.filter_cons]
      by_cases hpa : p a = true
      · simpa [hpa] using ih hmem
      · have hlt := ih hmem
        rw [if_neg hpa]
        simp only [List.length_cons]
        omega

/-! ### Claim C7 -/

/-- Claim C7: a strategy whose client library is unavailable returns
`(None, reason)` instead of raising, with the reasons
`requests-not-installed` / `mqtt-not-installed` / `coap-not-installed`; with
`requests` missing and the other libraries present, the sweep over the
built-in protocol list skips exactly the HTTP combinations (each with its
diagnostic) and still produces the rows of every MQTT and COAP combination —
36 rows in sweep order. -/
theorem c7_skip_propagation (stub : Combo → BenchRes) :
    (∀ (avail : Availability) (c : Combo),
      protoAvailable avail c.protocol = false →
        benchFor avail stub c = (none, some (missingReason c.protocol))) ∧
    missingReason "HTTP" = "requests-not-installed" ∧
    missingReason "MQTT" = "mqtt-not-installed" ∧
    missingReason "COAP" = "coap-not-installed" ∧
    (runSweep ⟨false, true, true⟩ stub defaultProtocols defaultScenarios
        defaultPayloads defaultQosList).1 =
      ((sweepCombos defaultProtocols defaultScenarios defaultPayloads
          defaultQosList).filter fun c => c.protocol ≠ "HTTP").map (rowOf stub) ∧
    (runSweep ⟨false, true, true⟩ stub defaultProtocols defaultScenarios
        defaultPayloads defaultQosList).2 =
      ((sweepCombos defaultProtocols defaultScenarios defaultPayloads
          defaultQosList).filter fun c => c.protocol = "HTTP").map
        (fun c => (c, "requests-not-installed")) ∧
    (runSweep ⟨false, true, true⟩ stub defaultProtocols defaultScenarios
        defaultPayloads defaultQosList).1.length = 36 := by
  refine ⟨?_, rfl, rfl, rfl, ?_, ?_, ?_⟩
  · intro avail c h
    rw [benchFor_eq]
    simp [h]
  · rw [runSweep_eq]
    exact congrArg (List.map (rowOf stub)) (List.filter_congr (by decide))
  · rw [runSweep_eq]
    have h1 := List.filter_congr (l := sweepCombos defaultProtocols
      defaultScenarios defaultPayloads defaultQosList) (by decide :
        ∀ x ∈ sweepCombos defaultProtocols defaultScenarios defaultPayloads
          defaultQosList,
          (! protoAvailable ⟨false, true, true⟩ x.protocol) =
            decide (x.protocol = "HTTP"))
    rw [h1]
    exact List.map_congr_left (by decide)
  · rw [runSweep_eq]
    simp only [List.length_map]
    decide

/-- Claim C7 witness: the HTTP strategy with `requests` missing, at one
concrete combination. -/
theorem c7_skip_propagation_witness :
    protoAvailable ⟨false, true, true⟩
      (⟨"HTTP", "normal", 32, none⟩ : Combo).protocol = false ∧
    benchFor ⟨false, true, true⟩ (fun _ => ⟨[], 0, 0⟩)
        ⟨"HTTP", "normal", 32, none⟩ =
      (none, some (missingReason (⟨"HTTP", "normal", 32, none⟩ : Combo).protocol)) :=
  ⟨rfl, (c7_skip_propagation (fun _ => ⟨[], 0, 0⟩)).1 ⟨false, true, true⟩
    ⟨"HTTP", "normal", 32, none⟩ rfl⟩

/-! ### Claim C8 -/

/-- Claim C8: the sweep enumerates exactly the cartesian product of requested
protocols × scenarios × payload sizes × QoS levels, with the QoS dimension
collapsed to the single value `None` for every protocol other than `MQTT`;
with the built-in lists this yields 27 MQTT combinations (3·3·3) and 9 each
for HTTP and COAP (3·3·1), 45 in total. -/
theorem c8_combination_enumeration :
    (∀ (protocols scenarios : List String) (payloads qosList : List Nat)
        (c : Combo),
      c ∈ sweepCombos protocols scenarios payloads qosList ↔
        c.protocol ∈ protocols ∧ c.scenario ∈ scenarios ∧
          c.payload ∈ payloads ∧
          (if c.protocol = "MQTT" then ∃ q0 ∈ qosList, c.qos = some q0
            else c.qos = none)) ∧
    ((sweepCombos defaultProtocols defaultScenarios defaultPayloads
        defaultQosList).filter fun c => c.protocol = "MQTT").length = 27 ∧
    ((sweepCombos defaultProtocols defaultScenarios defaultPayloads
        defaultQosList).filter fun c => c.protocol = "HTTP").length = 9 ∧
    ((sweepCombos defaultProtocols defaultScenarios defaultPayloads
        defaultQosList).filter fun c => c.protocol = "COAP").length = 9 ∧
    (sweepCombos defaultProtocols defaultScenarios defaultPayloads
        defaultQosList).length = 45 := by
  refine ⟨?_, by decide, by decide, by decide, by decide⟩
  intro ps ss pls qs c
  obtain ⟨cp, cs, cpl, cq⟩ := c
  simp only [sweepCombos, List.mem_flatMap, List.mem_map, qosIter]
  constructor
  · rintro ⟨p, hp, s, hs, pl, hpl, q, hq, heq⟩
    cases heq
    refine ⟨hp, hs, hpl, ?_⟩
    by_cases hm : cp = "MQTT"
    · rw [if_pos hm] at hq ⊢
      obtain ⟨q0, hq0, hq0eq⟩ := List.mem_map.1 hq
      exact ⟨q0, hq0, hq0eq.symm⟩
    · rw [if_neg hm] at hq ⊢
      simpa using hq
  · rintro ⟨hp, hs, hpl, hq⟩
    refine ⟨cp, hp, cs, hs, cpl, hpl, cq, ?_, rfl⟩
    by_cases hm : cp = "MQTT"
    · rw [if_pos hm] at hq ⊢
      obtain ⟨q0, hq0, hq0eq⟩ := hq
      exact List.mem_map.2 ⟨q0, hq0, hq0eq.symm⟩
    · rw [if_neg hm] at hq ⊢
      simp [hq]

/-- Claim C8 witness: one concrete MQTT combination is enumerated. -/
theorem c8_combination_enumeration_witness :
    (⟨"MQTT", "normal", 32, some 1⟩ : Combo) ∈
      sweepCombos defaultProtocols defaultScenarios defaultPayloads
        defaultQosList :=
  (c8_combination_enumeration.1 defaultProtocols defaultScenarios
      defaultPayloads defaultQosList ⟨"MQTT", "normal", 32, some 1⟩).2
    ⟨by decide, by decide, by decide, by decide⟩

/-! ### Claim C9 -/

/-- Claim C9: the result sink writes the output table iff at least one row
was produced — a non-empty row list is persisted in full, in sweep order,
while an empty one yields only the no-results diagnostic and no write. -/
theorem c9_sink_writes_iff (rows : List ResultRow) :
    (rows ≠ [] → resultSink rows = SinkAction.wrote rows) ∧
    (resultSink rows = SinkAction.warnedNoResults ↔ rows = []) := by
  constructor
  · intro h
    rw [resultSink, if_neg]
    simpa [List.isEmpty_iff] using h
  · rw [resultSink]
    by_cases h : rows = [] <;> simp [h]

/-- Claim C9 witness: the sink at a concrete one-row table and at the empty
table. -/
theorem c9_sink_writes_iff_witness :
    [summarize "HTTP" "normal" 32 none ⟨[], 0, 1⟩] ≠ [] ∧
    resultSink [summarize "HTTP" "normal" 32 none ⟨[], 0, 1⟩] =
      SinkAction.wrote [summarize "HTTP" "normal" 32 none ⟨[], 0, 1⟩] ∧
    (resultSink [] = SinkAction.warnedNoResults ↔ ([] : List ResultRow) = []) := by
  have hne : [summarize "HTTP" "normal" 32 none ⟨[], 0, 1⟩] ≠ [] := by simp
  exact ⟨hne, (c9_sink_writes_iff _).1 hne, (c9_sink_writes_iff []).2⟩

/-! ### Claim C10 -/

/-- Claim C10: an MQTT message received without the send-timestamp user
property is recorded with latency 0.0 and still counted by the receipt
counter (hence in `ok`/succeeded); since `summarize` keeps only strictly
positive latencies, that sample is excluded from `iterations` (strictly fewer
than the receipts), from the percentile/max list, and from the throughput
denominator — every value they are computed from is strictly positive. -/
theorem c10_missing_timestamp (msgs : List MqttMsg) (n i : Nat)
    (hi : i < msgs.length)
    (hnone : (msgs.getD i ⟨0, none⟩).t0prop = none) :
    (bench_mqtt msgs n).lat.getD i 0 = 0 ∧
    (bench_mqtt msgs n).ok = msgs.length ∧
    (summarize "MQTT" "normal" 32 (some 0) (bench_mqtt msgs n)).iterations =
      (posLat (bench_mqtt msgs n)).length ∧
    (0 : ℚ) ∉ posLat (bench_mqtt msgs n) ∧
    (∀ x ∈ posLat (bench_mqtt msgs n), 0 < x) ∧
    (posLat (bench_mqtt msgs n)).length < msgs.length := by
  have hlat : (bench_mqtt msgs n).lat = msgs.map onMessageLat := by
    rw [bench_mqtt, mqttReceive_eq]
  have hok : (bench_mqtt msgs n).ok = msgs.length := by
    rw [bench_mqtt, mqttReceive_eq]
  have hmlen : i < (msgs.map onMessageLat).length := by simpa using hi
  have hzero : (bench_mqtt msgs n).lat.getD i 0 = 0 := by
    rw [hlat, getD_eq_getElem_of_lt _ 0 hmlen, List.getElem_map]
    rw [getD_eq_getElem_of_lt msgs ⟨0, none⟩ hi] at hnone
    simp [onMessageLat, hnone]
  refine ⟨hzero, hok, rfl, ?_, fun x hx => posLat_pos hx, ?_⟩
  · intro h0
    exact absurd (posLat_pos h0) (by norm_num)
  · have h0mem : (0 : ℚ) ∈ msgs.map onMessageLat := by
      rw [hlat, getD_eq_getElem_of_lt _ 0 hmlen] at hzero
      rw [← hzero]
      exact List.getElem_mem hmlen
    rw [posLat, hlat]
    have hlt := @length_filter_lt_of_mem_not ℚ (fun x => decide (0 < x))
      (msgs.map onMessageLat) 0 h0mem (by simp)
    simpa using hlt

/-- Claim C10 witness: a single received message with no timestamp property.
It is counted (`ok = 1`) but contributes no positive latency. -/
theorem c10_missing_timestamp_witness :
    (([⟨5, none⟩] : List MqttMsg).getD 0 ⟨0, none⟩).t0prop = none ∧
    (bench_mqtt [⟨5, none⟩] 1).lat.getD 0 0 = 0 ∧
    (bench_mqtt [⟨5, none⟩] 1).ok = ([⟨5, none⟩] : List MqttMsg).length ∧
    (posLat (bench_mqtt [⟨5, none⟩] 1)).length <
      ([⟨5, none⟩] : List MqttMsg).length := by
  have h := c10_missing_timestamp [⟨5, none⟩] 1 0 (by norm_num) rfl
  exact ⟨rfl, h.1, h.2.1, h.2.2.2.2.2⟩

end Protokoliot
